import Mathlib

/-!
Shallow embedding of the `scarlet_test` package (files `core.py`,
`measure.py`, `deblend.py`): a regression-testing harness that deblends a
batch of synthetic scenes, measures per-source metrics, aggregates them into
a record table and persists one table per code revision ("branch"/PR).

Modelling conventions:
* Python floats are modelled as `ℚ`; the external primitive `np.log10` is an
  abstract parameter `log10 : ℚ → ℚ`, and `scarlet.measure.flux(sources[i])`
  is an abstract parameter `sourceFlux : Nat → ℚ` (both live in external
  libraries outside this repository).
* Python runtime exceptions are modelled with `Except PyError`.
* The file system (the `branches.json` list and the saved `.npz` files) is
  modelled as an explicit state `FSState` threaded through the functions.
* A Python `bool`-annotated parameter that the code compares against `None`
  (`save`) is modelled as `Option Bool`, so that the code's `save is not None`
  and truthiness tests (`if save:`) can be translated exactly:
  `save is not None` becomes `save ≠ none`, `if save:` becomes
  `save = some true`.
* Python dynamic values that flow through `deblend_and_measure`'s `results`
  variable are modelled by the inductive `PyVal` (dicts with rational values,
  lists/tuples, and opaque external objects); Python tuples and lists are
  both iterable and are both modelled by `PyVal.list`.
-/

namespace ScarletTest

/-- Python runtime errors that the embedded code can raise. -/
inductive PyError where
  | valueError (msg : String)
  | indexError
  | attributeError (attr : String)
deriving DecidableEq, Repr

/-- A Python value flowing through the dynamically typed `results` variable of
`deblend_and_measure`: a dict with string keys and float (here `ℚ`) values, a
list or tuple of values, or an opaque external object (an observation or a
source model). -/
inductive PyVal where
  | dict (entries : List (String × ℚ))
  | list (items : List PyVal)
  | obj (tag : String)

/-- `m.values()` on a Python value: succeeds only on a dict, in insertion
order; on a list/tuple or an external object it raises `AttributeError`. -/
def pyValues : PyVal → Except PyError (List ℚ)
  | .dict entries => .ok (entries.map Prod.snd)
  | .list _ => .error (.attributeError "values")
  | .obj _ => .error (.attributeError "values")

/-- `m.keys()` on a Python value: succeeds only on a dict. -/
def pyKeys : PyVal → Except PyError (List String)
  | .dict entries => .ok (entries.map Prod.fst)
  | .list _ => .error (.attributeError "keys")
  | .obj _ => .error (.attributeError "keys")

/-- The record table built by `np.rec.fromrecords(_records, names=keys)`:
the column names and one row of numbers per record. -/
structure RecordTable where
  names : List String
  rows : List (List ℚ)
deriving DecidableEq, Repr

/-- The file-system state the harness mutates: the `branches.json` list and
the saved `.npz` files (`path ↦ record table`, most recent write first). -/
structure FSState where
  branches : List String
  files : List (String × RecordTable)
deriving DecidableEq, Repr

/-- `core.py` line 17: the data directory (`os.path.join(__ROOT__, "data")`);
the root prefix is irrelevant to the claims, so the directory is kept
symbolic. -/
def __DATA_PATH__ : String := "data"

/-- The message template of `core.py` line 68, after
`msg.format(branch, set_id)`. -/
def existMsg (branch set_id : String) : String :=
  "Branch " ++ branch ++ " has already been analyzed for set " ++ set_id ++
    ", to overwrite set the `overwrite` flag"

/-- `core.py` `check_data_existence` (lines 59-70): raise `ValueError` when
the branch is already recorded and `overwrite` is not set, else return
`True`.  The branch list read by `get_branches()` is passed in from the
state. -/
def check_data_existence (set_id branch : String) (overwrite : Bool)
    (branches : List String) : Except PyError Bool :=
  if branch ∈ branches ∧ overwrite = false then
    .error (.valueError (existMsg branch set_id))
  else
    .ok true

/-- An OS error as seen by `create_path`: only its `errno` matters. -/
structure OSErr where
  errno : Int
deriving DecidableEq, Repr

/-- `errno.EEXIST`. -/
def EEXIST : Int := 17

/-- `core.py` `create_path` (lines 73-84): `os.makedirs` either succeeds
(`none`) or raises an `OSError` (`some e`); the function swallows the error
exactly when `e.errno == errno.EEXIST` and re-raises it otherwise. -/
def create_path (mkdirsResult : Option OSErr) : Except OSErr Unit :=
  match mkdirsResult with
  | none => .ok ()
  | some e => if e.errno ≠ EEXIST then .error e else .ok ()

/-- `core.py` `get_filename` (lines 87-93): `"{}.npz".format(pr)`. -/
def get_filename (pr : String) : String := pr ++ ".npz"

/-- `core.py` `save_branch` (lines 46-56) acting on the branch list state:
append the branch only when it is not yet present. -/
def save_branch (branch : String) (branches : List String) : List String :=
  if branch ∈ branches then branches else branches ++ [branch]

/-- The output contract of a deblender, per the `deblend_and_measure`
docstring: a tuple `(measurements, observation, sources)` where
`measurements` is the list of per-source measurement dicts.  The observation
and the source models are opaque external objects, kept as tags. -/
structure DeblendOut where
  measurements : List (List (String × ℚ))
  observation : String
  sources : List String

/-- The Python tuple value a deblender call evaluates to:
`(measurements, observation, sources)`, where `measurements` is itself a
list of dicts. -/
def deblenderTriple (out : DeblendOut) : PyVal :=
  .list [.list (out.measurements.map PyVal.dict), .obj out.observation,
    .list (out.sources.map PyVal.obj)]

/-- The loop of `deblend_and_measure` (`core.py` lines 140-151) as it acts on
the `results` variable: `results = []` before the loop, and each iteration
executes `results = deblender(data)` — an assignment, so the previous value
is discarded.  (The plotting branch, lines 153-170, only calls external
matplotlib code and does not touch `results`.) -/
def deblendLoop (deblender : String → DeblendOut) (blendIds : List String) :
    PyVal :=
  blendIds.foldl (fun _ bid => deblenderTriple (deblender bid)) (.list [])

/-- `core.py` lines 172-175:
`_records = [tuple(m.values()) for m in results]`,
`keys = tuple(results[0].keys())`,
`records = np.rec.fromrecords(_records, names=keys)`.
The comprehension runs first (raising `AttributeError` if some element of
`results` is not a dict), then `results[0]` raises `IndexError` when
`results` is empty. -/
def buildRecords (results : PyVal) : Except PyError RecordTable :=
  match results with
  | .list items =>
    match items.mapM pyValues with
    | .error e => .error e
    | .ok recs =>
      match items with
      | [] => .error .indexError
      | first :: _ =>
        match pyKeys first with
        | .error e => .error e
        | .ok ks => .ok ⟨ks, recs⟩
  | other =>
    match pyValues other with
    | .error e => .error e
    | .ok _ => .error .indexError

/-- The path `os.path.join(__DATA_PATH__, set_id, get_filename(branch))` of
`core.py` line 178. -/
def savePath (set_id branch : String) : String :=
  __DATA_PATH__ ++ "/" ++ set_id ++ "/" ++ get_filename branch

/-- `core.py` lines 176-180 acting on the file-system state: the guard is
literally `if save is not None:` (`save ≠ none`), and inside it the records
are written to `savePath` and `save_branch` is called. -/
def saveStage (set_id branch : String) (save : Option Bool)
    (records : RecordTable) (st : FSState) : FSState :=
  if save ≠ none then
    { branches := save_branch branch st.branches,
      files := (savePath set_id branch, records) :: st.files }
  else st

/-- `core.py` `deblend_and_measure` (lines 96-180): existence check when
`save` is truthy, then the deblending loop, then the records construction,
then the save stage guarded by `save is not None`.  The directory listing
`get_blend_ids` is passed in as `blendIds`, and the composite
"`np.load` the blend file then call the deblender on it" is the abstract
`deblender`. -/
def deblend_and_measure (set_id branch : String) (overwrite : Bool)
    (save : Option Bool) (deblender : String → DeblendOut)
    (blendIds : List String) (st : FSState) :
    Except PyError (RecordTable × FSState) :=
  let check : Except PyError Bool :=
    if save = some true then
      check_data_existence set_id branch overwrite st.branches
    else .ok true
  match check with
  | .error e => .error e
  | .ok _ =>
    match buildRecords (deblendLoop deblender blendIds) with
    | .error e => .error e
    | .ok records => .ok (records, saveStage set_id branch save records st)

/-- A matched ground-truth catalog entry of a scene: its integer pixel
center (`int(m["y"]), int(m["x"])`, `measure.py` line 38) and its per-band
true magnitude, looked up by the structured-array field name
`filter + "magVar"` (`measure.py` line 40). -/
structure MatchedEntry where
  cy : Int
  cx : Int
  magVar : String → ℚ

/-- `measure.py` line 45:
`np.where((centers[:, 0] == cy) & (centers[:, 1] == cx))[0][0]` —
the index of the first candidate center equal to `(cy, cx)`, or `none`
(in Python: `IndexError`) when no candidate matches. -/
def matchIndex (centers : List (Int × Int)) (cy cx : Int) : Option Nat :=
  match centers with
  | [] => none
  | c :: rest =>
    if c.1 = cy ∧ c.2 = cx then some 0
    else (matchIndex rest cy cx).map (· + 1)

/-- `measure.py` `measure_blend` (lines 20-56), its `for` loop written as
recursion on the matched entries: for each matched entry, find the
candidate-center index (raising `IndexError` when there is none), convert
the source flux to a magnitude (`27 - 2.5 * log10 flux`), and append one
measurement dict with a `(filter + " diff", diff)` entry per filter, where
`diff = true_flux - flux_magnitude`.  `log10` stands for `np.log10` and
`sourceFlux i` for `scarlet.measure.flux(sources[i])`. -/
def measure_blend (centers : List (Int × Int)) (matched : List MatchedEntry)
    (filters : List String) (log10 : ℚ → ℚ) (sourceFlux : Nat → ℚ) :
    Except PyError (List (List (String × ℚ))) :=
  match matched with
  | [] => .ok []
  | m :: rest =>
    match matchIndex centers m.cy m.cx with
    | none => .error .indexError
    | some idx =>
      let fluxMag := 27 - 2.5 * log10 (sourceFlux idx)
      let meas := filters.map (fun fn =>
        (fn ++ " diff", m.magVar (fn ++ "magVar") - fluxMag))
      match measure_blend centers rest filters log10 sourceFlux with
      | .error e => .error e
      | .ok ms => .ok (meas :: ms)

/-- `np.min` on a nonempty array, modelled on lists (the `[]` case is junk;
`np.min` raises on an empty array and the theorems assume nonemptiness). -/
def npMin : List ℚ → ℚ
  | [] => 0
  | x :: xs => xs.foldl min x

/-- `np.max` on a nonempty array, modelled on lists. -/
def npMax : List ℚ → ℚ
  | [] => 0
  | x :: xs => xs.foldl max x

/-- `measure.py` `check_log` (lines 59-71): return `True` (after configuring
log-scale ticks on the external matplotlib axis, which has no observable
state here) exactly when `max(log10 data) - min(log10 data) > 2`. -/
def check_log (log10 : ℚ → ℚ) (data : List ℚ) : Bool :=
  let d := data.map log10
  decide (npMax d - npMin d > 2)

/-- `np.clip(x, lo, hi) = min(max(x, lo), hi)`. -/
def npClip (x lo hi : ℚ) : ℚ := min (max x lo) hi

/-- `measure.py` `adjacent_values` (lines 11-17): the 1.5-IQR whiskers
clipped to the data range; returns `(lower, upper)`. -/
def adjacent_values (vals : List ℚ) (q1 q3 : ℚ) : ℚ × ℚ :=
  let upper := npClip (q3 + (q3 - q1) * 1.5) q3 (vals.getLastD 0)
  let lower := npClip (q1 - (q3 - q1) * 1.5) (vals.headD 0) q1
  (lower, upper)

/-! Concrete instances used to evaluate the embedded code on explicit
inputs. -/

/-- A deblender producing 2 measurements for scene `"b1"` and 3 for any
other scene. -/
def exampleDeblender : String → DeblendOut := fun bid =>
  if bid = "b1" then ⟨[[("g diff", 1)], [("g diff", 2)]], "obs1", ["s1"]⟩
  else ⟨[[("g diff", 3)], [("g diff", 4)], [("g diff", 5)]], "obs2", ["s2"]⟩

/-- An empty record table. -/
def emptyRecords : RecordTable := ⟨[], []⟩

/-- The identity as a concrete stand-in for `np.log10`. -/
def idQ : ℚ → ℚ := fun x => x

/-- The constant-zero function on rationals. -/
def zeroFun : ℚ → ℚ := fun _ => 0

/-- A source-flux table that returns 1 for every source index. -/
def oneFluxNat : Nat → ℚ := fun _ => 1

/-- A source-flux table that returns 0 for every source index. -/
def zeroFluxNat : Nat → ℚ := fun _ => 0

/-- A matched entry at integer center (1, 2) with zero true magnitude. -/
def exEntryDup : MatchedEntry := ⟨1, 2, fun _ => 0⟩

/-- A matched entry at integer center (0, 0) whose true magnitude is 30 in
every band. -/
def exEntry30 : MatchedEntry := ⟨0, 0, fun _ => 30⟩

/-- The candidate-center list [(1, 2), (1, 2)]: two distinct candidates with
identical integer coordinates. -/
def exampleCenters : List (Int × Int) := [(1, 2), (1, 2)]

/-! Helper lemmas about the matching index of `measure_blend`. -/

/-- A successful `matchIndex` lookup returns an index whose candidate center
equals the looked-up coordinates. -/
theorem matchIndex_some_eq (centers : List (Int × Int)) (cy cx : Int)
    (i : Nat) (h : matchIndex centers cy cx = some i) :
    centers.get? i = some (cy, cx) := by
  induction centers generalizing i with
  | nil => simp [matchIndex] at h
  | cons c rest ih =>
    rcases c with ⟨a, b⟩
    by_cases hc : a = cy ∧ b = cx
    · simp [matchIndex, hc] at h
      subst h
      simp [hc.1, hc.2]
    · simp [matchIndex, hc, Option.map_eq_some'] at h
      rcases h with ⟨j, hj, hji⟩
      subst hji
      simpa using ih j hj

/-- `matchIndex` returns the first matching index: every earlier candidate
differs from the looked-up coordinates. -/
theorem matchIndex_first (centers : List (Int × Int)) (cy cx : Int)
    (i : Nat) (h : matchIndex centers cy cx = some i) :
    ∀ j, j < i → centers.get? j ≠ some (cy, cx) := by
  induction centers generalizing i with
  | nil => simp [matchIndex] at h
  | cons c rest ih =>
    rcases c with ⟨a, b⟩
    by_cases hc : a = cy ∧ b = cx
    · simp [matchIndex, hc] at h
      subst h
      intro j hj
      exact absurd hj (Nat.not_lt_zero j)
    · simp [matchIndex, hc, Option.map_eq_some'] at h
      rcases h with ⟨j0, hj0, hji⟩
      subst hji
      intro j hj
      cases j with
      | zero =>
        simp
        intro hay hbx
        exact hc ⟨hay, hbx⟩
      | succ j =>
        have := ih j0 hj0 j (by omega)
        simpa using this

/-- `matchIndex` fails exactly when no candidate center equals the looked-up
coordinates. -/
theorem matchIndex_none_iff (centers : List (Int × Int)) (cy cx : Int) :
    matchIndex centers cy cx = none ↔ ∀ c ∈ centers, c ≠ (cy, cx) := by
  induction centers with
  | nil => simp [matchIndex]
  | cons c rest ih =>
    rcases c with ⟨a, b⟩
    by_cases hc : a = cy ∧ b = cx
    · obtain ⟨ha, hb⟩ := hc
      subst ha; subst hb
      constructor
      · intro h
        simp [matchIndex] at h
      · intro h
        exact absurd rfl (h (a, b) (List.mem_cons_self _ _))
    · have hA : ((a : Int), b) ≠ (cy, cx) := by
        intro he
        cases he
        exact hc ⟨rfl, rfl⟩
      simp [matchIndex, hc, Option.map_eq_none', ih, List.forall_mem_cons, hA]

/-- When `measure_blend` succeeds, the k-th measurement dict is built from
the k-th matched entry: its match index, and one diff entry per filter with
value `true_flux - (27 - 2.5 * log10 flux)`. -/
theorem measure_blend_ok_get (centers : List (Int × Int))
    (matched : List MatchedEntry) (filters : List String) (log10 : ℚ → ℚ)
    (sourceFlux : Nat → ℚ) (ms : List (List (String × ℚ)))
    (h : measure_blend centers matched filters log10 sourceFlux = .ok ms) :
    ∀ k m, matched.get? k = some m →
      ∃ idx, matchIndex centers m.cy m.cx = some idx ∧
        ms.get? k = some (filters.map (fun fn =>
          (fn ++ " diff",
            m.magVar (fn ++ "magVar") - (27 - 2.5 * log10 (sourceFlux idx))))) := by
  induction matched generalizing ms with
  | nil =>
    intro k m hk
    simp at hk
  | cons m0 rest ih =>
    intro k m hk
    rw [measure_blend] at h
    rcases hidx : matchIndex centers m0.cy m0.cx with _ | idx0 <;> rw [hidx] at h
    · simp at h
    · rcases hrest : measure_blend centers rest filters log10 sourceFlux
        with e | ms0 <;> simp only [hrest] at h
      · simp at h
      · simp only [Except.ok.injEq] at h
        subst h
        cases k with
        | zero =>
          simp only [List.get?] at hk
          cases hk
          exact ⟨idx0, hidx, by simp⟩
        | succ k =>
          simp only [List.get?] at hk ⊢
          exact ih ms0 hrest k m hk

/-- When some matched entry has no matching candidate center,
`measure_blend` raises `IndexError`. -/
theorem measure_blend_unmatched (centers : List (Int × Int))
    (matched : List MatchedEntry) (filters : List String) (log10 : ℚ → ℚ)
    (sourceFlux : Nat → ℚ) (m : MatchedEntry) (hm : m ∈ matched)
    (hnone : matchIndex centers m.cy m.cx = none) :
    measure_blend centers matched filters log10 sourceFlux =
      .error .indexError := by
  induction matched with
  | nil => simp at hm
  | cons m0 rest ih =>
    rw [measure_blend]
    rcases hidx : matchIndex centers m0.cy m0.cx with _ | idx0
    · rfl
    · rcases List.mem_cons.mp hm with he | hr
      · subst he
        rw [hidx] at hnone
        exact absurd hnone (by simp)
      · rw [ih hr]

/-! Helper lemmas about `npMax` and `npMin`. -/

/-- The seed is bounded by a `max`-fold. -/
theorem foldl_max_seed_le (l : List ℚ) : ∀ a : ℚ, a ≤ l.foldl max a := by
  induction l with
  | nil => intro a; simp
  | cons x xs ih =>
    intro a
    exact le_trans (le_max_left a x) (ih (max a x))

/-- Every element is bounded by a `max`-fold. -/
theorem foldl_max_mem_le (l : List ℚ) :
    ∀ a x, x ∈ l → x ≤ l.foldl max a := by
  induction l with
  | nil => intro a x hx; simp at hx
  | cons y ys ih =>
    intro a x hx
    rcases List.mem_cons.mp hx with he | hm
    · subst he
      exact le_trans (le_max_right a x) (foldl_max_seed_le ys (max a x))
    · exact ih (max a y) x hm

/-- A `max`-fold is the seed or an element. -/
theorem foldl_max_cases (l : List ℚ) :
    ∀ a : ℚ, l.foldl max a = a ∨ l.foldl max a ∈ l := by
  induction l with
  | nil => intro a; simp
  | cons y ys ih =>
    intro a
    rw [List.foldl_cons]
    rcases ih (max a y) with h | h
    · rw [h]
      rcases max_choice a y with hm | hm
      · exact Or.inl hm
      · exact Or.inr (by rw [hm]; exact List.mem_cons_self y ys)
    · exact Or.inr (List.mem_cons_of_mem y h)

/-- A `min`-fold bounds the seed. -/
theorem foldl_min_le_seed (l : List ℚ) : ∀ a : ℚ, l.foldl min a ≤ a := by
  induction l with
  | nil => intro a; simp
  | cons x xs ih =>
    intro a
    exact le_trans (ih (min a x)) (min_le_left a x)

/-- A `min`-fold bounds every element. -/
theorem foldl_min_le_mem (l : List ℚ) :
    ∀ a x, x ∈ l → l.foldl min a ≤ x := by
  induction l with
  | nil => intro a x hx; simp at hx
  | cons y ys ih =>
    intro a x hx
    rcases List.mem_cons.mp hx with he | hm
    · subst he
      exact le_trans (foldl_min_le_seed ys (min a x)) (min_le_right a x)
    · exact ih (min a y) x hm

/-- A `min`-fold is the seed or an element. -/
theorem foldl_min_cases (l : List ℚ) :
    ∀ a : ℚ, l.foldl min a = a ∨ l.foldl min a ∈ l := by
  induction l with
  | nil => intro a; simp
  | cons y ys ih =>
    intro a
    rw [List.foldl_cons]
    rcases ih (min a y) with h | h
    · rw [h]
      rcases min_choice a y with hm | hm
      · exact Or.inl hm
      · exact Or.inr (by rw [hm]; exact List.mem_cons_self y ys)
    · exact Or.inr (List.mem_cons_of_mem y h)

/-- `npMax` of a nonempty list is one of its elements. -/
theorem npMax_mem (l : List ℚ) (h : l ≠ []) : npMax l ∈ l := by
  cases l with
  | nil => exact absurd rfl h
  | cons x xs =>
    rcases foldl_max_cases xs x with he | hm
    · simp [npMax, he]
    · exact List.mem_cons_of_mem x (by simpa [npMax] using hm)

/-- `npMin` of a nonempty list is one of its elements. -/
theorem npMin_mem (l : List ℚ) (h : l ≠ []) : npMin l ∈ l := by
  cases l with
  | nil => exact absurd rfl h
  | cons x xs =>
    rcases foldl_min_cases xs x with he | hm
    · simp [npMin, he]
    · exact List.mem_cons_of_mem x (by simpa [npMin] using hm)

/-- Every element of a list is at most its `npMax`. -/
theorem le_npMax (l : List ℚ) (x : ℚ) (hx : x ∈ l) : x ≤ npMax l := by
  cases l with
  | nil => simp at hx
  | cons y ys =>
    rcases List.mem_cons.mp hx with he | hm
    · subst he
      exact foldl_max_seed_le ys x
    · exact foldl_max_mem_le ys y x hm

/-- `npMin` is at most every element of the list. -/
theorem npMin_le (l : List ℚ) (x : ℚ) (hx : x ∈ l) : npMin l ≤ x := by
  cases l with
  | nil => simp at hx
  | cons y ys =>
    rcases List.mem_cons.mp hx with he | hm
    · subst he
      exact foldl_min_le_seed ys x
    · exact foldl_min_le_mem ys y x hm

/-! The claims. -/

/-- C1: with save requested, `deblend_and_measure` fails with a
`ValueError` naming the branch and the set when the branch is already in
the recorded branch list and `overwrite` is false, and
`check_data_existence` returns `True` when `overwrite` is true or the
branch is not yet recorded. -/
theorem duplicate_save_guarded (s b : String) (ow : Bool)
    (deblender : String → DeblendOut) (ids : List String) (st : FSState) :
    (b ∈ st.branches ∧ ow = false →
      check_data_existence s b ow st.branches =
          .error (.valueError (existMsg b s)) ∧
        deblend_and_measure s b ow (some true) deblender ids st =
          .error (.valueError (existMsg b s)))
    ∧ (ow = true ∨ b ∉ st.branches →
        check_data_existence s b ow st.branches = .ok true) := by
  constructor
  · rintro ⟨hb, how⟩
    have hc : check_data_existence s b ow st.branches =
        .error (.valueError (existMsg b s)) := by
      simp [check_data_existence, hb, how]
    refine ⟨hc, ?_⟩
    simp [deblend_and_measure, hc]
  · rintro (h | h) <;> simp [check_data_existence, h]

/-- C1 witness: concrete duplicate save attempt for branch "b1" in set
"s1". -/
theorem duplicate_save_guarded_witness :
    check_data_existence "s1" "b1" false
        (FSState.mk ["b1"] []).branches =
        .error (.valueError (existMsg "b1" "s1")) ∧
      deblend_and_measure "s1" "b1" false (some true) exampleDeblender []
          (FSState.mk ["b1"] []) =
        .error (.valueError (existMsg "b1" "s1")) :=
  (duplicate_save_guarded "s1" "b1" false exampleDeblender []
      (FSState.mk ["b1"] [])).1 ⟨by simp, rfl⟩

/-- C2: the loop of `deblend_and_measure` does not append each scene's
measurements to the growing `results` collection: each iteration replaces
`results` with the last deblender output, so the final table is not the
concatenation of the scenes' measurements — on the concrete two-scene batch
with 2 + 3 = 5 per-source measurements the records construction raises
`AttributeError` instead of producing a 5-row table. -/
theorem records_loop_overwrites :
    (∀ (deblender : String → DeblendOut) (ids : List String) (b : String),
      deblendLoop deblender (ids ++ [b]) = deblenderTriple (deblender b))
    ∧ buildRecords (deblendLoop exampleDeblender ["b1", "b2"]) =
        .error (.attributeError "values")
    ∧ (exampleDeblender "b1").measurements.length +
        (exampleDeblender "b2").measurements.length = 5 := by
  refine ⟨?_, rfl, rfl⟩
  intro deblender ids b
  simp [deblendLoop, List.foldl_append]

/-- C5: the save block of `deblend_and_measure` is guarded by
`save is not None`, which holds for every boolean value of `save`: even
with saving not requested (`save = some false`) the block writes the
records file and appends the branch, as the concrete run on an empty state
shows. -/
theorem save_gate_ignores_flag :
    (∀ (flag : Bool) (s b : String) (r : RecordTable) (st : FSState),
      saveStage s b (some flag) r st =
        { branches := save_branch b st.branches,
          files := (savePath s b, r) :: st.files })
    ∧ saveStage "set1" "b1" (some false) emptyRecords (FSState.mk [] []) =
        FSState.mk ["b1"] [(savePath "set1" "b1", emptyRecords)] := by
  exact ⟨fun flag s b r st => by simp [saveStage], rfl⟩

/-- C3 counterexample: two candidate centers share the integer coordinates
of the matched entry (an ambiguous match), yet `measure_blend` succeeds
instead of failing — it silently uses the first candidate. -/
theorem ambiguous_match_not_failure :
    (exampleCenters.filter
        (fun c => decide (c = (exEntryDup.cy, exEntryDup.cx)))).length = 2
    ∧ measure_blend exampleCenters [exEntryDup] [] zeroFun zeroFluxNat =
        .ok [[]] :=
  ⟨rfl, rfl⟩

/-- C3 (amended): `measure_blend` selects the first candidate center whose
integer coordinates exactly equal the matched entry's integer coordinates;
when no candidate matches it fails with an `IndexError`; when more than one
candidate matches it silently selects the first rather than failing. -/
theorem match_selects_first (centers : List (Int × Int))
    (matched : List MatchedEntry) (filters : List String) (log10 : ℚ → ℚ)
    (sourceFlux : Nat → ℚ) (m : MatchedEntry) :
    (∀ i, matchIndex centers m.cy m.cx = some i →
      centers.get? i = some (m.cy, m.cx) ∧
        ∀ j, j < i → centers.get? j ≠ some (m.cy, m.cx))
    ∧ (matchIndex centers m.cy m.cx = none ↔
        ∀ c ∈ centers, c ≠ (m.cy, m.cx))
    ∧ (m ∈ matched → matchIndex centers m.cy m.cx = none →
        measure_blend centers matched filters log10 sourceFlux =
          .error .indexError) := by
  refine ⟨fun i hi => ⟨matchIndex_some_eq centers m.cy m.cx i hi,
      matchIndex_first centers m.cy m.cx i hi⟩,
    matchIndex_none_iff centers m.cy m.cx, fun hm hnone =>
      measure_blend_unmatched centers matched filters log10 sourceFlux m
        hm hnone⟩

/-- C4: when `measure_blend` succeeds, the diff it records for matched
entry `k` in the band at position `f` of the filter list equals the entry's
true magnitude in that band minus the magnitude-converted source flux,
`true_flux - (27 - 2.5 * log10 F)`. -/
theorem flux_diff_formula (centers : List (Int × Int))
    (matched : List MatchedEntry) (filters : List String) (log10 : ℚ → ℚ)
    (sourceFlux : Nat → ℚ) (ms : List (List (String × ℚ)))
    (k f idx : Nat) (m : MatchedEntry) (fn : String)
    (hok : measure_blend centers matched filters log10 sourceFlux = .ok ms)
    (hk : matched.get? k = some m)
    (hidx : matchIndex centers m.cy m.cx = some idx)
    (hf : filters.get? f = some fn) :
    ∃ row, ms.get? k = some row ∧
      row.get? f = some (fn ++ " diff",
        m.magVar (fn ++ "magVar") - (27 - 2.5 * log10 (sourceFlux idx))) := by
  obtain ⟨idx0, hidx0, hrow⟩ :=
    measure_blend_ok_get centers matched filters log10 sourceFlux ms hok k m hk
  have hii : idx0 = idx := by
    rw [hidx0] at hidx
    exact Option.some.inj hidx
  subst hii
  refine ⟨_, hrow, ?_⟩
  rw [List.get?_eq_getElem?] at hf ⊢
  rw [List.getElem?_map, hf]
  rfl

/-- C4 witness: one scene with one matched source of true magnitude 30 in
band "g", a stub deblender flux of 1 and a zero `log10` stub: the recorded
diff is `30 - (27 - 2.5 * 0) = 3`. -/
theorem flux_diff_formula_witness :
    ∃ row, ([[("g diff", (3 : ℚ))]] :
        List (List (String × ℚ))).get? 0 = some row ∧
      row.get? 0 = some ("g" ++ " diff",
        exEntry30.magVar ("g" ++ "magVar") -
          (27 - 2.5 * zeroFun (oneFluxNat 0))) :=
  flux_diff_formula [(0, 0)] [exEntry30] ["g"] zeroFun oneFluxNat
    [[("g diff", 3)]] 0 0 0 exEntry30 "g"
    (by simp [measure_blend, matchIndex, exEntry30, zeroFun, oneFluxNat]
        norm_num)
    rfl rfl rfl

/-- C6: `create_path` re-raises the underlying OS error exactly when
directory creation fails for a reason other than "already exists"
(`errno == EEXIST`); an "already exists" failure, or no failure, returns
normally. -/
theorem create_path_raises_iff (r : Option OSErr) :
    (∀ e, create_path r = .error e ↔ r = some e ∧ e.errno ≠ EEXIST)
    ∧ (create_path r = .ok () ↔
        r = none ∨ ∃ e, r = some e ∧ e.errno = EEXIST) := by
  cases r with
  | none => simp [create_path]
  | some e0 =>
    constructor
    · intro e
      by_cases h : e0.errno = EEXIST <;> simp [create_path, h] <;>
        rintro rfl <;> simp [h]
    · by_cases h : e0.errno = EEXIST <;> simp [create_path, h]

/-- C7: the measurement table for revision `b` of set `s` is persisted to
the single flat file `__DATA_PATH__/s/(b ++ ".npz")`; `get_filename` and
the whole save path (for a fixed set) are injective in the revision, so
distinct revisions are persisted to distinct files. -/
theorem persisted_file_keyed_by_revision :
    Function.Injective get_filename
    ∧ (∀ s : String, Function.Injective (savePath s))
    ∧ (∀ (s b : String) (r : RecordTable) (st : FSState),
        (saveStage s b (some true) r st).files =
          (savePath s b, r) :: st.files)
    ∧ (∀ (s b : String), savePath s b =
        __DATA_PATH__ ++ "/" ++ s ++ "/" ++ (b ++ ".npz")) := by
  refine ⟨?_, ?_, fun s b r st => by simp [saveStage], fun s b => rfl⟩
  · intro a b h
    have hd := congrArg String.data h
    simp only [get_filename, String.data_append] at hd
    exact String.ext (List.append_cancel_right hd)
  · intro s a b h
    unfold savePath get_filename __DATA_PATH__ at h
    have hd := congrArg String.data h
    simp only [String.data_append, List.append_assoc] at hd
    have h1 := List.append_cancel_left hd
    have h2 := List.append_cancel_left h1
    have h3 := List.append_cancel_left h2
    have h4 := List.append_cancel_left h3
    exact String.ext (List.append_cancel_right h4)

/-- C8: on a duplicate-free branch list, `save_branch` leaves the list
unchanged when the branch is already present, is idempotent, and preserves
duplicate-freeness. -/
theorem save_branch_idempotent (b : String) (l : List String)
    (hnd : l.Nodup) :
    (b ∈ l → save_branch b l = l)
    ∧ save_branch b (save_branch b l) = save_branch b l
    ∧ (save_branch b l).Nodup := by
  refine ⟨fun hb => by simp [save_branch, hb], ?_, ?_⟩
  · by_cases hb : b ∈ l
    · simp [save_branch, hb]
    · simp [save_branch, hb]
  · by_cases hb : b ∈ l
    · simpa [save_branch, hb] using hnd
    · simp only [save_branch, hb, if_false]
      exact List.Nodup.append hnd (List.nodup_singleton b)
        (by simpa using hb)

/-- C8 witness: the branch "b" and the duplicate-free list ["a"]. -/
theorem save_branch_idempotent_witness :
    (("b" : String) ∈ (["a"] : List String) →
        save_branch "b" ["a"] = ["a"])
    ∧ save_branch "b" (save_branch "b" ["a"]) = save_branch "b" ["a"]
    ∧ (save_branch "b" ["a"]).Nodup :=
  save_branch_idempotent "b" ["a"] (by simp)

/-- C9: on a nonempty list of positive values, `check_log` returns `true`
exactly when the maximum of the `log10`-transformed data exceeds its
minimum by more than 2 — equivalently, when some two data points are more
than two orders of magnitude apart. -/
theorem check_log_two_decades (log10 : ℚ → ℚ) (data : List ℚ)
    (hne : data ≠ []) (hpos : ∀ x ∈ data, 0 < x) :
    (check_log log10 data = true ↔
      npMax (data.map log10) - npMin (data.map log10) > 2)
    ∧ (check_log log10 data = true ↔
      ∃ x ∈ data, ∃ y ∈ data, log10 x - log10 y > 2) := by
  have h1 : check_log log10 data = true ↔
      npMax (data.map log10) - npMin (data.map log10) > 2 := by
    simp [check_log]
  refine ⟨h1, h1.trans ?_⟩
  have hne2 : data.map log10 ≠ [] := by
    simpa using hne
  constructor
  · intro hgt
    rcases List.mem_map.mp (npMax_mem _ hne2) with ⟨x, hx, hxe⟩
    rcases List.mem_map.mp (npMin_mem _ hne2) with ⟨y, hy, hye⟩
    exact ⟨x, hx, y, hy, by rw [hxe, hye]; exact hgt⟩
  · rintro ⟨x, hx, y, hy, hxy⟩
    have hxle : log10 x ≤ npMax (data.map log10) :=
      le_npMax _ _ (List.mem_map_of_mem log10 hx)
    have hyle : npMin (data.map log10) ≤ log10 y :=
      npMin_le _ _ (List.mem_map_of_mem log10 hy)
    linarith

/-- C9 witness: the data [1, 1000] spans three orders of magnitude under
the identity stand-in for `log10`. -/
theorem check_log_two_decades_witness :
    (check_log idQ [1, 1000] = true ↔
      npMax (([1, 1000] : List ℚ).map idQ) -
          npMin (([1, 1000] : List ℚ).map idQ) > 2)
    ∧ (check_log idQ [1, 1000] = true ↔
      ∃ x ∈ ([1, 1000] : List ℚ), ∃ y ∈ ([1, 1000] : List ℚ),
        idQ x - idQ y > 2) :=
  check_log_two_decades idQ [1, 1000] (by simp) (by norm_num)

/-- C10: on a nonempty sorted list with `vals[0] ≤ q1 ≤ q3 ≤ vals[-1]`,
`adjacent_values` returns the 1.5-IQR fences clipped to the data — the
lower whisker is `q1 - 1.5*(q3-q1)` clipped into `[vals[0], q1]` and the
upper whisker is `q3 + 1.5*(q3-q1)` clipped into `[q3, vals[-1]]` — and
both whiskers lie within `[vals[0], vals[-1]]`. -/
theorem adjacent_values_whiskers (vals : List ℚ) (q1 q3 : ℚ)
    (hs : List.Sorted (· ≤ ·) vals) (hne : vals ≠ [])
    (h0 : vals.headD 0 ≤ q1) (h13 : q1 ≤ q3) (h3 : q3 ≤ vals.getLastD 0) :
    ((adjacent_values vals q1 q3).1 =
        npClip (q1 - (q3 - q1) * 1.5) (vals.headD 0) q1
      ∧ (adjacent_values vals q1 q3).2 =
        npClip (q3 + (q3 - q1) * 1.5) q3 (vals.getLastD 0))
    ∧ (vals.headD 0 ≤ (adjacent_values vals q1 q3).1
      ∧ (adjacent_values vals q1 q3).1 ≤ q1)
    ∧ (q3 ≤ (adjacent_values vals q1 q3).2
      ∧ (adjacent_values vals q1 q3).2 ≤ vals.getLastD 0)
    ∧ (vals.headD 0 ≤ (adjacent_values vals q1 q3).2
      ∧ (adjacent_values vals q1 q3).1 ≤ vals.getLastD 0) := by
  have hlow :
      (adjacent_values vals q1 q3).1 =
        min (max (q1 - (q3 - q1) * 1.5) (vals.headD 0)) q1 := rfl
  have hup :
      (adjacent_values vals q1 q3).2 =
        min (max (q3 + (q3 - q1) * 1.5) q3) (vals.getLastD 0) := rfl
  have hlow_ge : vals.headD 0 ≤ (adjacent_values vals q1 q3).1 := by
    rw [hlow]
    exact le_min (le_trans (le_max_right _ _) (le_refl _)) h0
  have hlow_le : (adjacent_values vals q1 q3).1 ≤ q1 := by
    rw [hlow]; exact min_le_right _ _
  have hup_ge : q3 ≤ (adjacent_values vals q1 q3).2 := by
    rw [hup]
    exact le_min (le_max_right _ _) h3
  have hup_le : (adjacent_values vals q1 q3).2 ≤ vals.getLastD 0 := by
    rw [hup]; exact min_le_right _ _
  exact ⟨⟨rfl, rfl⟩, ⟨hlow_ge, hlow_le⟩, ⟨hup_ge, hup_le⟩,
    ⟨le_trans h0 (le_trans h13 hup_ge), le_trans hlow_le (le_trans h13 h3)⟩⟩

/-- C10 witness: the sorted data [0, 1, 2, 3] with quartiles q1 = 1,
q3 = 2. -/
theorem adjacent_values_whiskers_witness :
    ((adjacent_values [0, 1, 2, 3] 1 2).1 =
        npClip (1 - (2 - 1) * 1.5) (([0, 1, 2, 3] : List ℚ).headD 0) 1
      ∧ (adjacent_values [0, 1, 2, 3] 1 2).2 =
        npClip (2 + (2 - 1) * 1.5) 2 (([0, 1, 2, 3] : List ℚ).getLastD 0))
    ∧ (([0, 1, 2, 3] : List ℚ).headD 0 ≤ (adjacent_values [0, 1, 2, 3] 1 2).1
      ∧ (adjacent_values [0, 1, 2, 3] 1 2).1 ≤ 1)
    ∧ ((2 : ℚ) ≤ (adjacent_values [0, 1, 2, 3] 1 2).2
      ∧ (adjacent_values [0, 1, 2, 3] 1 2).2 ≤
          ([0, 1, 2, 3] : List ℚ).getLastD 0)
    ∧ (([0, 1, 2, 3] : List ℚ).headD 0 ≤ (adjacent_values [0, 1, 2, 3] 1 2).2
      ∧ (adjacent_values [0, 1, 2, 3] 1 2).1 ≤
          ([0, 1, 2, 3] : List ℚ).getLastD 0) :=
  adjacent_values_whiskers [0, 1, 2, 3] 1 2
    (by norm_num [List.Sorted]) (by simp) (by norm_num) (by norm_num)
    (by norm_num)

end ScarletTest
